import Mathlib

/-
Shallow embedding of the vlbl guest bootloader (apps/hv/guest/vlbl):
  - virt_int.c : the virtual BIOS interrupt dispatcher `handler`, the static
    Memory Region Table `mem_ranges` and its cursor walk `find_next_mem_range`;
  - loader.c   : the kernel image loader `load_kernel` and the 4-byte copy
    routine `cpy4`.

Machine integers are modelled as Nat with explicit `% 2 ^ w` where the C
arithmetic can wrap (uint32 sums, pointer casts, the uint16 cast for
`heap_end_ptr`).  Guest memory is a function from byte address to byte value
for `cpy4`, and from byte address to 32-bit word value for the E820 record
copy (`cpy_to_es4` copies whole 4-byte words, so the record is observed at
word granularity).  Diagnostic output (`puts`/`putsi`/`putux`/`putchar`
ending at the serial byte sink) is modelled as a trace of log events.
-/

/-- Diagnostic output events.  Each `puts`/`putsi`/`log`/`dump_int_args`/
`putux`/`putchar` call on the byte sink appends one event. -/
inductive LogEvent where
  | dump (i eax ecx edx ebx ebp esi edi flags : Nat)
  | biosLog (s : String)
  | vlblMsg (s : String)
  | hexOut (n : Nat)
  | newline
deriving DecidableEq

/-- Entry of the Memory Region Table (struct mem_range in virt_int.c). -/
structure MemRange where
  start : Nat
  length : Nat
  type : Nat
deriving DecidableEq

/-- The static Memory Region Table (const struct mem_range mem_ranges[] in
virt_int.c), 8 entries. -/
def mem_ranges : List MemRange :=
  [ ⟨0x0, 0x7000, 1⟩,
    ⟨0x7000, 0x9000, 2⟩,
    ⟨0x10000, 0xff0000, 1⟩,
    ⟨0x1000000, 0xf000000, 1⟩,
    ⟨0x70000000, 0x10000000, 1⟩,
    ⟨0xfec00000, 0x1000, 2⟩,
    ⟨0xfed00000, 0x1000, 2⟩,
    ⟨0xfee00000, 0x1000, 2⟩ ]

/-- sizeof(mem_ranges) / sizeof(struct mem_range). -/
def mem_range_count : Nat := mem_ranges.length

/-- Translation of find_next_mem_range: given the cursor `*ebx`, returns the
quadruple (new ebx, *next, *length, *type).  An out-of-range cursor zeroes
all four outputs; otherwise the entry at the cursor is produced and the
cursor advances by one. -/
def find_next_mem_range (ebx : Nat) : Nat × Nat × Nat × Nat :=
  if ebx ≥ mem_range_count then (0, 0, 0, 0)
  else
    let r := mem_ranges.getD ebx ⟨0, 0, 0⟩
    (ebx + 1, r.start, r.length, r.type)

/-- Store a 32-bit word at a guest byte address (word-granular view of
guest memory, see file comment). -/
def updWord (m : Nat → Nat) (a v : Nat) : Nat → Nat :=
  fun x => if x = a then v else m x

/-- Modelled from the spec: `cpy_to_es4` is external assembly (declared but
not defined in the sources); the spec says it copies the result record into
the guest buffer addressed by `edi`.  The loop shape follows `cpy_to_es_eg`
from virt_int.c: 4-byte words are stored at `to`, `to + 4`, ... in order. -/
def cpy_to_es_words (m : Nat → Nat) (dst : Nat) : List Nat → (Nat → Nat)
  | [] => m
  | w :: ws => cpy_to_es_words (updWord m dst w) (dst + 4) ws

/-- The BIOS call context: the guest register slots and flags the hypervisor
passes to `handler` by address, the guest (ES) memory the E820 record is
copied into, and the diagnostic output trace. -/
structure IntState where
  eax : Nat
  ecx : Nat
  edx : Nat
  ebx : Nat
  ebp : Nat
  esi : Nat
  edi : Nat
  flags : Nat
  mem : Nat → Nat
  out : List LogEvent

/-- Translation of handler from virt_int.c: the virtual BIOS interrupt
dispatcher.  `i` is the trapped interrupt number; the register slots are
mutated in place (modelled as a new state). -/
def handler (i : Nat) (s : IntState) : IntState :=
  if i = 0x10 then
    s
  else
    let s1 := { s with
      out := s.out ++ [LogEvent.dump i s.eax s.ecx s.edx s.ebx s.ebp s.esi s.edi s.flags] }
    let fn := s1.eax
    if i = 0x15 then
      if fn = 0xec00 then
        if s1.ebx = 2 then
          { s1 with out := s1.out ++ [LogEvent.biosLog "OS tells BIOS it will be 64-bit, ok"] }
        else
          { s1 with out := s1.out ++ [LogEvent.biosLog "Unknown ebx for ec00!"] }
      else if fn = 0xe820 then
        let r := find_next_mem_range s1.ebx
        { s1 with
          ebx := r.1,
          eax := s1.edx,
          edx := 0,
          flags := s1.flags &&& 0xfffe,
          mem := cpy_to_es_words s1.mem s1.edi [r.2.1, 0, r.2.2.1, 0, r.2.2.2] }
      else if fn = 0xe801 then
        { s1 with eax := 0x3c00, ecx := 0x3c00, ebx := 0, edx := 0,
                  flags := s1.flags &&& 0xfffe }
      else if fn = 0x8800 then
        { s1 with eax := 0, flags := s1.flags &&& 0xfffe }
      else
        { s1 with out := s1.out ++ [LogEvent.biosLog "Unknown eax for int 15h!"] }
    else if i = 0x16 then
      if fn = 0x0200 then
        { s1 with eax := 0 }
      else if fn = 0x0305 then
        s1
      else
        { s1 with out := s1.out ++ [LogEvent.biosLog "Unknown eax for int 16h!"] }
    else
      { s1 with out := s1.out ++ [LogEvent.biosLog "Unsupported int!"] }

/-- One iteration of the cpy4 loop body (*ptr_dst = *ptr_src on uint32):
copies the 4 bytes at src, src+1, src+2, src+3 to dst..dst+3 as one
simultaneous word store. -/
def copyWord4 (m : Nat → Nat) (dst src : Nat) : Nat → Nat :=
  fun a => if a = dst ∨ a = dst + 1 ∨ a = dst + 2 ∨ a = dst + 3
           then m (src + (a - dst)) else m a

/-- Translation of cpy4 from loader.c: for (i = 0; i < size; i += 4) copy one
uint32 word.  The loop runs while i < size, so a final partial word (size not
a multiple of 4) is still copied whole; the base cases 1, 2, 3 are the last
iteration with fewer than 4 bytes of size remaining. -/
def cpy4 : (Nat → Nat) → Nat → Nat → Nat → (Nat → Nat)
  | m, _, _, 0 => m
  | m, dst, src, 1 => copyWord4 m dst src
  | m, dst, src, 2 => copyWord4 m dst src
  | m, dst, src, 3 => copyWord4 m dst src
  | m, dst, src, n + 4 => cpy4 (copyWord4 m dst src) (dst + 4) (src + 4) n

/-- The kernel command line (const char cmd[256] in loader.c). -/
def cmdString : String := "console=uart8250,io,0x3f8,115200n8 debug"

/-- Concrete BIOS call context used to exercise the out-of-range E820 cursor:
interrupt 0x15, eax = 0xe820, cursor ebx = 8 (past the 8-entry table) and the
SMAP signature 0x534d4150 in edx, as a real caller supplies it. -/
def outOfRangeE820State : IntState :=
  ⟨0xe820, 0, 0x534d4150, 8, 0, 0, 0, 0, fun _ => 0, []⟩

/-- The Linux boot header fields that load_kernel reads or writes
(kernel_header in loader.c, at offset 0x1f0 of the image).  Field values are
Nats holding the stored machine value (setup_sects, type_of_loader,
loadflags: uint8; vid_mode, heap_end_ptr: uint16; the rest uint32). -/
structure KernelHeader where
  setup_sects : Nat
  syssize : Nat
  vid_mode : Nat
  type_of_loader : Nat
  loadflags : Nat
  code32_start : Nat
  ramdisk_image : Nat
  ramdisk_size : Nat
  heap_end_ptr : Nat
  cmd_line_ptr : Nat
  initrd_addr_max : Nat
  setup_data_l : Nat
  setup_data_h : Nat
deriving DecidableEq

/-- Result of load_kernel: the relocated header after patching, the two
computed copy sizes, the diagnostic trace, and the C return value. -/
structure LoadResult where
  header : KernelHeader
  lower_size : Nat
  upper_size : Nat
  out : List LogEvent
  ret : Nat
deriving DecidableEq

/-- Translation of load_kernel from loader.c at header granularity.  `orig`
is the header read at kernel_image + 0x1f0.  The two cpy4 calls relocate the
real-mode and protected-mode parts; since lower_size is at least
(1 + 1) * 512 = 1024 bytes (a multiple of 4, covering the header, which ends
below offset 0x270), the relocated header at loc_real + 0x1f0 before the
patch equals `orig`, which the record model uses directly.  Addresses are
guest-physical 32-bit values; `% 0x100000000` appears exactly where the C code
casts a pointer to uint32 or adds uint32 values, and the uint16 store of the
pointer difference for heap_end_ptr is the mathematical difference modulo
2 ^ 16 (computed via Int to model ptrdiff wrap-around). -/
def load_kernel (orig : KernelHeader) (loc_real stack_end loc_prot initramfs : Nat)
    (initramfs_size : Nat) : LoadResult :=
  let lower_size := ((if orig.setup_sects = 0 then 4 else orig.setup_sects) + 1) * 512
  let upper_size := orig.syssize * 16 % 0x100000000
  let out1 := [LogEvent.vlblMsg "[vlbl] loading kernel...",
               LogEvent.vlblMsg "[vlbl] cmdline: ",
               LogEvent.vlblMsg cmdString]
  let h1 : KernelHeader := { orig with
    vid_mode := 0xffff,
    type_of_loader := 0xff,
    loadflags := (orig.loadflags &&& 0x1f) ||| 0x80,
    code32_start := loc_prot % 0x100000000,
    heap_end_ptr := (((stack_end : Int) - (loc_real : Int) - 0x200) % 0x10000).toNat,
    cmd_line_ptr := stack_end % 0x100000000,
    setup_data_l := 0,
    setup_data_h := 0 }
  if h1.initrd_addr_max < (initramfs % 0x100000000 + initramfs_size) % 0x100000000 then
    { header := { h1 with ramdisk_image := 0, ramdisk_size := 0 },
      lower_size := lower_size,
      upper_size := upper_size,
      out := out1 ++
        [LogEvent.vlblMsg "[vlbl] cannot load initrd because of a too small initrd_addr_max: ",
         LogEvent.hexOut h1.initrd_addr_max,
         LogEvent.newline,
         LogEvent.vlblMsg "[vlbl] kernel loaded."],
      ret := 0 }
  else
    { header := { h1 with ramdisk_image := initramfs % 0x100000000,
                          ramdisk_size := initramfs_size },
      lower_size := lower_size,
      upper_size := upper_size,
      out := out1 ++ [LogEvent.vlblMsg "[vlbl] kernel loaded."],
      ret := 0 }

/-- Concrete header used to instantiate the loader theorems: setup_sects = 31,
syssize = 100, low loadflags bits 0x2b, initrd_addr_max = 0x7fffffff, other
fields arbitrary nonzero values. -/
def sampleHeader : KernelHeader :=
  ⟨31, 100, 3, 7, 0x2b, 11, 13, 17, 19, 23, 0x7fffffff, 29, 37⟩

/- Helper lemmas about the embedded operations. -/

/-- Unfolding of the five-word E820 record store into nested single-word
stores. -/
lemma cpy_to_es_words_five (m : Nat → Nat) (d w0 w1 w2 w3 w4 : Nat) :
    cpy_to_es_words m d [w0, w1, w2, w3, w4] =
      updWord (updWord (updWord (updWord (updWord m d w0) (d + 4) w1) (d + 4 + 4) w2)
        (d + 4 + 4 + 4) w3) (d + 4 + 4 + 4 + 4) w4 := rfl

/-- Reading back the five words of a stored E820 record. -/
lemma cpy_to_es_words_read (m : Nat → Nat) (d w0 w1 w2 w3 w4 : Nat) :
    cpy_to_es_words m d [w0, w1, w2, w3, w4] d = w0 ∧
    cpy_to_es_words m d [w0, w1, w2, w3, w4] (d + 4) = w1 ∧
    cpy_to_es_words m d [w0, w1, w2, w3, w4] (d + 8) = w2 ∧
    cpy_to_es_words m d [w0, w1, w2, w3, w4] (d + 12) = w3 ∧
    cpy_to_es_words m d [w0, w1, w2, w3, w4] (d + 16) = w4 := by
  rw [cpy_to_es_words_five]
  simp only [updWord]
  refine ⟨?_, ?_, ?_, ?_, ?_⟩ <;> (repeat' split) <;>
    first | rfl | omega | (exfalso; omega) | simp_all

/-- An in-range cursor yields the table entry at the cursor and advances the
cursor by one. -/
lemma find_next_mem_range_lt (k : Nat) (h : k < 8) :
    find_next_mem_range k =
      (k + 1, (mem_ranges.getD k ⟨0, 0, 0⟩).start, (mem_ranges.getD k ⟨0, 0, 0⟩).length,
        (mem_ranges.getD k ⟨0, 0, 0⟩).type) := by
  rw [find_next_mem_range, if_neg]
  simp [mem_range_count, mem_ranges]
  omega

/-- An out-of-range cursor yields four zeroes. -/
lemma find_next_mem_range_ge (k : Nat) (h : 8 ≤ k) :
    find_next_mem_range k = (0, 0, 0, 0) := by
  rw [find_next_mem_range, if_pos]
  simpa [mem_range_count, mem_ranges] using h

/-- Masking with 0xfffe clears bit 0 (the carry bit). -/
lemma land_fffe_even (f : Nat) : (f &&& 0xfffe) &&& 1 = 0 := by
  rw [Nat.land_assoc]
  simp

/-- Action of handler on an 0x15/0xe820 call, in terms of the cursor walk and
the record store. -/
lemma handler_e820 (s : IntState) (h : s.eax = 0xe820) :
    handler 0x15 s = { s with
      out := s.out ++ [LogEvent.dump 0x15 s.eax s.ecx s.edx s.ebx s.ebp s.esi s.edi s.flags],
      ebx := (find_next_mem_range s.ebx).1,
      eax := s.edx,
      edx := 0,
      flags := s.flags &&& 0xfffe,
      mem := cpy_to_es_words s.mem s.edi
        [(find_next_mem_range s.ebx).2.1, 0, (find_next_mem_range s.ebx).2.2.1, 0,
         (find_next_mem_range s.ebx).2.2.2] } := by
  simp only [handler, h]
  norm_num

/- Claim theorems. -/

/-- C8: invoking handler with interrupt number 0x10 leaves all seven
general-purpose register slots and the flags slot unchanged and emits no log
output (the handler returns before touching anything: the whole call context,
including guest memory and the output trace, is returned unchanged). -/
theorem int10_is_noop (s : IntState) : handler 0x10 s = s := rfl

/-- C9: for every interrupt number, function code, and register state,
handler never writes the ebp, esi, or edi register slots: their values on
return equal their values at entry. -/
theorem handler_preserves_ebp_esi_edi (i : Nat) (s : IntState) :
    (handler i s).ebp = s.ebp ∧ (handler i s).esi = s.esi ∧ (handler i s).edi = s.edi := by
  refine ⟨?_, ?_, ?_⟩ <;> unfold handler <;> dsimp only <;> (repeat' split) <;> rfl

/-- C7: an interrupt 0x15 call with eax = 0xe801 sets eax = ecx = 0x3c00,
ebx = edx = 0 and clears the carry bit (bit 0) of flags, for every input
register state. -/
theorem e801_fixed_response (ecx edx ebx ebp esi edi flags : Nat)
    (mem : Nat → Nat) (out : List LogEvent) :
    (handler 0x15 ⟨0xe801, ecx, edx, ebx, ebp, esi, edi, flags, mem, out⟩).eax = 0x3c00 ∧
    (handler 0x15 ⟨0xe801, ecx, edx, ebx, ebp, esi, edi, flags, mem, out⟩).ecx = 0x3c00 ∧
    (handler 0x15 ⟨0xe801, ecx, edx, ebx, ebp, esi, edi, flags, mem, out⟩).ebx = 0 ∧
    (handler 0x15 ⟨0xe801, ecx, edx, ebx, ebp, esi, edi, flags, mem, out⟩).edx = 0 ∧
    (handler 0x15 ⟨0xe801, ecx, edx, ebx, ebp, esi, edi, flags, mem, out⟩).flags &&& 1 = 0 := by
  refine ⟨?_, ?_, ?_, ?_, ?_⟩ <;> simp [handler]
  simpa using land_fffe_even flags

/-- C5 counterexample: on an out-of-range E820 cursor (ebx = 8) the handler
does not clear eax: eax receives the value edx held on entry (the SMAP
signature echo `*eax = *edx` runs on this path too), so with edx = 0x534d4150
on entry, eax is 0x534d4150 ≠ 0 on return. -/
theorem e820_end_of_list_eax_not_cleared :
    (handler 0x15 outOfRangeE820State).eax = 0x534d4150 ∧ (0x534d4150 : Nat) ≠ 0 := by
  constructor
  · decide
  · decide

/-- C5 amended: for every invocation of handler with interrupt 0x15,
eax = 0xe820 and an out-of-range cursor ebx ≥ 8, the handler clears ebx and
edx, sets eax to the value edx held on entry, and clears the carry bit of
flags to signal end-of-list. -/
theorem e820_end_of_list_registers (k : Nat) (hk : 8 ≤ k)
    (ecx edx ebp esi edi flags : Nat) (mem : Nat → Nat) (out : List LogEvent) :
    (handler 0x15 ⟨0xe820, ecx, edx, k, ebp, esi, edi, flags, mem, out⟩).ebx = 0 ∧
    (handler 0x15 ⟨0xe820, ecx, edx, k, ebp, esi, edi, flags, mem, out⟩).edx = 0 ∧
    (handler 0x15 ⟨0xe820, ecx, edx, k, ebp, esi, edi, flags, mem, out⟩).eax = edx ∧
    (handler 0x15 ⟨0xe820, ecx, edx, k, ebp, esi, edi, flags, mem, out⟩).flags &&& 1 = 0 := by
  rw [handler_e820 _ rfl]
  rw [find_next_mem_range_ge k hk]
  exact ⟨rfl, rfl, rfl, land_fffe_even flags⟩

/-- C5 amended, witness at cursor 9. -/
theorem e820_end_of_list_registers_witness :
    (handler 0x15 ⟨0xe820, 1, 2, 9, 3, 4, 5, 6, fun _ => 0, []⟩).ebx = 0 ∧
    (handler 0x15 ⟨0xe820, 1, 2, 9, 3, 4, 5, 6, fun _ => 0, []⟩).edx = 0 ∧
    (handler 0x15 ⟨0xe820, 1, 2, 9, 3, 4, 5, 6, fun _ => 0, []⟩).eax = 2 ∧
    (handler 0x15 ⟨0xe820, 1, 2, 9, 3, 4, 5, 6, fun _ => 0, []⟩).flags &&& 1 = 0 :=
  e820_end_of_list_registers 9 (by decide) 1 2 3 4 5 6 (fun _ => 0) []

/-- C1: on an interrupt 0x15 / eax = 0xe820 call with in-range cursor
ebx = k < 8, the handler stores at the guest address edi the 20-byte record
base = mem_ranges[k].start, length = mem_ranges[k].length,
type = mem_ranges[k].type with the high 32-bit words of base and length zero,
and leaves ebx = k + 1; with cursor ebx = 8 (the 9th call of the traversal)
it reports end-of-list: the cursor is reset to 0 and the stored record is
all zeroes. -/
theorem e820_enumerates_table (k : Nat) (hk : k < 8)
    (ecx edx ebp esi edi flags : Nat) (mem : Nat → Nat) (out : List LogEvent) :
    ((handler 0x15 ⟨0xe820, ecx, edx, k, ebp, esi, edi, flags, mem, out⟩).ebx = k + 1 ∧
     (handler 0x15 ⟨0xe820, ecx, edx, k, ebp, esi, edi, flags, mem, out⟩).mem edi =
       (mem_ranges.getD k ⟨0, 0, 0⟩).start ∧
     (handler 0x15 ⟨0xe820, ecx, edx, k, ebp, esi, edi, flags, mem, out⟩).mem (edi + 4) = 0 ∧
     (handler 0x15 ⟨0xe820, ecx, edx, k, ebp, esi, edi, flags, mem, out⟩).mem (edi + 8) =
       (mem_ranges.getD k ⟨0, 0, 0⟩).length ∧
     (handler 0x15 ⟨0xe820, ecx, edx, k, ebp, esi, edi, flags, mem, out⟩).mem (edi + 12) = 0 ∧
     (handler 0x15 ⟨0xe820, ecx, edx, k, ebp, esi, edi, flags, mem, out⟩).mem (edi + 16) =
       (mem_ranges.getD k ⟨0, 0, 0⟩).type) ∧
    ((handler 0x15 ⟨0xe820, ecx, edx, 8, ebp, esi, edi, flags, mem, out⟩).ebx = 0 ∧
     (handler 0x15 ⟨0xe820, ecx, edx, 8, ebp, esi, edi, flags, mem, out⟩).mem edi = 0 ∧
     (handler 0x15 ⟨0xe820, ecx, edx, 8, ebp, esi, edi, flags, mem, out⟩).mem (edi + 4) = 0 ∧
     (handler 0x15 ⟨0xe820, ecx, edx, 8, ebp, esi, edi, flags, mem, out⟩).mem (edi + 8) = 0 ∧
     (handler 0x15 ⟨0xe820, ecx, edx, 8, ebp, esi, edi, flags, mem, out⟩).mem (edi + 12) = 0 ∧
     (handler 0x15 ⟨0xe820, ecx, edx, 8, ebp, esi, edi, flags, mem, out⟩).mem (edi + 16) = 0) := by
  constructor
  · rw [handler_e820 _ rfl, find_next_mem_range_lt k hk]
    have h := cpy_to_es_words_read mem edi (mem_ranges.getD k ⟨0, 0, 0⟩).start 0
      (mem_ranges.getD k ⟨0, 0, 0⟩).length 0 (mem_ranges.getD k ⟨0, 0, 0⟩).type
    exact ⟨rfl, h.1, h.2.1, h.2.2.1, h.2.2.2.1, h.2.2.2.2⟩
  · rw [handler_e820 _ rfl, find_next_mem_range_ge 8 (by omega)]
    have h := cpy_to_es_words_read mem edi 0 0 0 0 0
    exact ⟨rfl, h.1, h.2.1, h.2.2.1, h.2.2.2.1, h.2.2.2.2⟩

/-- C1 witness at cursor k = 4: the record for mem_ranges[4] =
(0x70000000, 0x10000000, 1) is stored at edi = 0x5000 and ebx becomes 5;
at cursor 8 the end-of-list response is produced. -/
theorem e820_enumerates_table_witness :
    ((handler 0x15 ⟨0xe820, 0, 0, 4, 0, 0, 0x5000, 0, fun _ => 7, []⟩).ebx = 4 + 1 ∧
     (handler 0x15 ⟨0xe820, 0, 0, 4, 0, 0, 0x5000, 0, fun _ => 7, []⟩).mem 0x5000 =
       (mem_ranges.getD 4 ⟨0, 0, 0⟩).start ∧
     (handler 0x15 ⟨0xe820, 0, 0, 4, 0, 0, 0x5000, 0, fun _ => 7, []⟩).mem (0x5000 + 4) = 0 ∧
     (handler 0x15 ⟨0xe820, 0, 0, 4, 0, 0, 0x5000, 0, fun _ => 7, []⟩).mem (0x5000 + 8) =
       (mem_ranges.getD 4 ⟨0, 0, 0⟩).length ∧
     (handler 0x15 ⟨0xe820, 0, 0, 4, 0, 0, 0x5000, 0, fun _ => 7, []⟩).mem (0x5000 + 12) = 0 ∧
     (handler 0x15 ⟨0xe820, 0, 0, 4, 0, 0, 0x5000, 0, fun _ => 7, []⟩).mem (0x5000 + 16) =
       (mem_ranges.getD 4 ⟨0, 0, 0⟩).type) ∧
    ((handler 0x15 ⟨0xe820, 0, 0, 8, 0, 0, 0x5000, 0, fun _ => 7, []⟩).ebx = 0 ∧
     (handler 0x15 ⟨0xe820, 0, 0, 8, 0, 0, 0x5000, 0, fun _ => 7, []⟩).mem 0x5000 = 0 ∧
     (handler 0x15 ⟨0xe820, 0, 0, 8, 0, 0, 0x5000, 0, fun _ => 7, []⟩).mem (0x5000 + 4) = 0 ∧
     (handler 0x15 ⟨0xe820, 0, 0, 8, 0, 0, 0x5000, 0, fun _ => 7, []⟩).mem (0x5000 + 8) = 0 ∧
     (handler 0x15 ⟨0xe820, 0, 0, 8, 0, 0, 0x5000, 0, fun _ => 7, []⟩).mem (0x5000 + 12) = 0 ∧
     (handler 0x15 ⟨0xe820, 0, 0, 8, 0, 0, 0x5000, 0, fun _ => 7, []⟩).mem (0x5000 + 16) = 0) :=
  e820_enumerates_table 4 (by decide) 0 0 0 0 0x5000 0 (fun _ => 7) []

/-- C2: after every call to load_kernel, the relocated header is patched so
that vid_mode = 0xffff, type_of_loader = 0xff, loadflags keeps the original
low 5 bits with bit 7 set, code32_start = loc_prot, heap_end_ptr =
stack_end - loc_real - 0x200, cmd_line_ptr = stack_end, and
setup_data_l = setup_data_h = 0 (addresses in 32-bit range, the heap offset
in uint16 range). -/
theorem load_kernel_patches_header (orig : KernelHeader) (lr se lp ir irs : Nat)
    (h1 : lp < 0x100000000) (h2 : se < 0x100000000)
    (h3 : lr + 0x200 ≤ se) (h4 : se - lr - 0x200 < 0x10000) :
    (load_kernel orig lr se lp ir irs).header.vid_mode = 0xffff ∧
    (load_kernel orig lr se lp ir irs).header.type_of_loader = 0xff ∧
    (load_kernel orig lr se lp ir irs).header.loadflags = (orig.loadflags &&& 0x1f) ||| 0x80 ∧
    (load_kernel orig lr se lp ir irs).header.code32_start = lp ∧
    (load_kernel orig lr se lp ir irs).header.heap_end_ptr = se - lr - 0x200 ∧
    (load_kernel orig lr se lp ir irs).header.cmd_line_ptr = se ∧
    (load_kernel orig lr se lp ir irs).header.setup_data_l = 0 ∧
    (load_kernel orig lr se lp ir irs).header.setup_data_h = 0 := by
  unfold load_kernel
  dsimp only
  split <;>
    refine ⟨rfl, rfl, rfl, ?_, ?_, ?_, rfl, rfl⟩ <;> dsimp only <;> omega

/-- C2 witness: loc_real = 0x1000, stack_end = 0x9000, loc_prot = 0x100000. -/
theorem load_kernel_patches_header_witness :
    (load_kernel sampleHeader 0x1000 0x9000 0x100000 0 0).header.vid_mode = 0xffff ∧
    (load_kernel sampleHeader 0x1000 0x9000 0x100000 0 0).header.type_of_loader = 0xff ∧
    (load_kernel sampleHeader 0x1000 0x9000 0x100000 0 0).header.loadflags =
      (sampleHeader.loadflags &&& 0x1f) ||| 0x80 ∧
    (load_kernel sampleHeader 0x1000 0x9000 0x100000 0 0).header.code32_start = 0x100000 ∧
    (load_kernel sampleHeader 0x1000 0x9000 0x100000 0 0).header.heap_end_ptr =
      0x9000 - 0x1000 - 0x200 ∧
    (load_kernel sampleHeader 0x1000 0x9000 0x100000 0 0).header.cmd_line_ptr = 0x9000 ∧
    (load_kernel sampleHeader 0x1000 0x9000 0x100000 0 0).header.setup_data_l = 0 ∧
    (load_kernel sampleHeader 0x1000 0x9000 0x100000 0 0).header.setup_data_h = 0 :=
  load_kernel_patches_header sampleHeader 0x1000 0x9000 0x100000 0 0
    (by decide) (by decide) (by decide) (by decide)

/-- C4: load_kernel computes lower_size = (setup_sects + 1) * 512 when
setup_sects is nonzero and (4 + 1) * 512 = 2560 when setup_sects is zero, and
upper_size = syssize * 16 (no uint32 wrap of the product). -/
theorem load_kernel_copy_sizes (orig : KernelHeader) (lr se lp ir irs : Nat)
    (hsz : orig.syssize * 16 < 0x100000000) :
    (orig.setup_sects ≠ 0 →
      (load_kernel orig lr se lp ir irs).lower_size = (orig.setup_sects + 1) * 512) ∧
    (orig.setup_sects = 0 → (load_kernel orig lr se lp ir irs).lower_size = 2560) ∧
    (load_kernel orig lr se lp ir irs).upper_size = orig.syssize * 16 := by
  unfold load_kernel
  dsimp only
  split <;>
    refine ⟨fun h0 => ?_, fun h0 => ?_, Nat.mod_eq_of_lt hsz⟩ <;>
      simp [h0]

/-- C4 witness: setup_sects = 31 gives lower_size = 16384, setup_sects = 0
gives 2560, and syssize = 100 gives upper_size = 1600. -/
theorem load_kernel_copy_sizes_witness :
    (load_kernel sampleHeader 1 2 3 4 5).lower_size = 16384 ∧
    (load_kernel { sampleHeader with setup_sects := 0 } 1 2 3 4 5).lower_size = 2560 ∧
    (load_kernel sampleHeader 1 2 3 4 5).upper_size = 1600 := by
  refine ⟨?_, ?_, ?_⟩
  · simpa using (load_kernel_copy_sizes sampleHeader 1 2 3 4 5 (by decide)).1 (by decide)
  · exact (load_kernel_copy_sizes { sampleHeader with setup_sects := 0 } 1 2 3 4 5
      (by decide)).2.1 rfl
  · simpa using (load_kernel_copy_sizes sampleHeader 1 2 3 4 5 (by decide)).2.2

/-- C3: with no uint32 wrap of initramfs + initramfs_size, the initramfs is
attached (ramdisk_image = initramfs, ramdisk_size = initramfs_size) iff
initramfs + initramfs_size ≤ initrd_addr_max; when the sum is exactly
initrd_addr_max + 1 both fields are zero and the diagnostic is emitted. -/
theorem load_kernel_initramfs_limit (orig : KernelHeader) (lr se lp ir irs : Nat)
    (h : ir + irs < 0x100000000) :
    (((load_kernel orig lr se lp ir irs).header.ramdisk_image = ir ∧
      (load_kernel orig lr se lp ir irs).header.ramdisk_size = irs) ↔
      ir + irs ≤ orig.initrd_addr_max) ∧
    (ir + irs = orig.initrd_addr_max + 1 →
      (load_kernel orig lr se lp ir irs).header.ramdisk_image = 0 ∧
      (load_kernel orig lr se lp ir irs).header.ramdisk_size = 0 ∧
      LogEvent.vlblMsg "[vlbl] cannot load initrd because of a too small initrd_addr_max: "
        ∈ (load_kernel orig lr se lp ir irs).out) := by
  have hmod : (ir % 0x100000000 + irs) % 0x100000000 = ir + irs := by omega
  unfold load_kernel
  dsimp only
  rw [hmod]
  split
  next hlt =>
    refine ⟨by dsimp only; omega, fun heq => ⟨rfl, rfl, by simp⟩⟩
  next hge =>
    have hir : ir % 0x100000000 = ir := by omega
    refine ⟨?_, fun heq => by omega⟩
    dsimp only
    rw [hir]
    constructor
    · intro _
      omega
    · intro _
      exact ⟨rfl, rfl⟩

/-- C3 witness: with initrd_addr_max = 0x7fffffff, attaching at sum exactly
0x7fffffff succeeds; at 0x80000000 = 0x7fffffff + 1 it is rejected with both
fields zero and the diagnostic present. -/
theorem load_kernel_initramfs_limit_witness :
    (((load_kernel sampleHeader 1 2 3 0x7ffff000 0xfff).header.ramdisk_image = 0x7ffff000 ∧
      (load_kernel sampleHeader 1 2 3 0x7ffff000 0xfff).header.ramdisk_size = 0xfff) ↔
      0x7ffff000 + 0xfff ≤ sampleHeader.initrd_addr_max) ∧
    (0x7ffff000 + 0x1000 = sampleHeader.initrd_addr_max + 1 →
      (load_kernel sampleHeader 1 2 3 0x7ffff000 0x1000).header.ramdisk_image = 0 ∧
      (load_kernel sampleHeader 1 2 3 0x7ffff000 0x1000).header.ramdisk_size = 0 ∧
      LogEvent.vlblMsg "[vlbl] cannot load initrd because of a too small initrd_addr_max: "
        ∈ (load_kernel sampleHeader 1 2 3 0x7ffff000 0x1000).out) :=
  ⟨(load_kernel_initramfs_limit sampleHeader 1 2 3 0x7ffff000 0xfff (by decide)).1,
   (load_kernel_initramfs_limit sampleHeader 1 2 3 0x7ffff000 0x1000 (by decide)).2⟩

/-- C10: the initramfs limit check compares initrd_addr_max against
(initramfs + initramfs_size) mod 2^32, and for initramfs = 0xfffff000,
initramfs_size = 0x2000 (true sum 0x100001000 ≥ 2^32, wrapped sum 0x1000)
with initrd_addr_max = 0x7fffffff the initramfs is attached even though the
unwrapped end address exceeds the limit. -/
theorem initrd_check_uses_wrapped_sum :
    (∀ (orig : KernelHeader) (lr se lp ir irs : Nat), ir < 0x100000000 →
      ((load_kernel orig lr se lp ir irs).header.ramdisk_image =
        if orig.initrd_addr_max < (ir + irs) % 0x100000000 then 0 else ir) ∧
      ((load_kernel orig lr se lp ir irs).header.ramdisk_size =
        if orig.initrd_addr_max < (ir + irs) % 0x100000000 then 0 else irs)) ∧
    (0x100000000 ≤ 0xfffff000 + 0x2000 ∧
     (0xfffff000 + 0x2000) % 0x100000000 ≤ sampleHeader.initrd_addr_max ∧
     sampleHeader.initrd_addr_max < 0xfffff000 + 0x2000 ∧
     (load_kernel sampleHeader 0x1000 0x9000 0x100000 0xfffff000 0x2000).header.ramdisk_image =
       0xfffff000 ∧
     (load_kernel sampleHeader 0x1000 0x9000 0x100000 0xfffff000 0x2000).header.ramdisk_size =
       0x2000) := by
  constructor
  · intro orig lr se lp ir irs hir
    have hmod : ir % 0x100000000 = ir := Nat.mod_eq_of_lt hir
    unfold load_kernel
    dsimp only
    rw [hmod]
    refine ⟨?_, ?_⟩ <;> split <;> rename_i hC <;> simp [hC]
  · decide

/-- C10 witness for the universally quantified part. -/
theorem initrd_check_uses_wrapped_sum_witness :
    ((load_kernel sampleHeader 1 2 3 10 20).header.ramdisk_image =
      if sampleHeader.initrd_addr_max < (10 + 20) % 0x100000000 then 0 else 10) ∧
    ((load_kernel sampleHeader 1 2 3 10 20).header.ramdisk_size =
      if sampleHeader.initrd_addr_max < (10 + 20) % 0x100000000 then 0 else 20) :=
  initrd_check_uses_wrapped_sum.1 sampleHeader 1 2 3 10 20 (by decide)

/-- Bytes outside the written window [dst, dst + 4 * ceil(size / 4)) are
unchanged by cpy4. -/
lemma cpy4_frame : ∀ (size : Nat) (m : Nat → Nat) (dst src a : Nat),
    a < dst ∨ dst + 4 * ((size + 3) / 4) ≤ a → cpy4 m dst src size a = m a := by
  intro size
  induction size using Nat.strong_induction_on with
  | _ size ih =>
    intro m dst src a h
    rcases size with _ | _ | _ | _ | n
    · rfl
    · simp only [cpy4, copyWord4]
      rw [if_neg (show ¬(a = dst ∨ a = dst + 1 ∨ a = dst + 2 ∨ a = dst + 3) by omega)]
    · simp only [cpy4, copyWord4]
      rw [if_neg (show ¬(a = dst ∨ a = dst + 1 ∨ a = dst + 2 ∨ a = dst + 3) by omega)]
    · simp only [cpy4, copyWord4]
      rw [if_neg (show ¬(a = dst ∨ a = dst + 1 ∨ a = dst + 2 ∨ a = dst + 3) by omega)]
    · simp only [cpy4]
      rw [ih n (by omega) (copyWord4 m dst src) (dst + 4) (src + 4) a (by omega)]
      simp only [copyWord4]
      rw [if_neg (show ¬(a = dst ∨ a = dst + 1 ∨ a = dst + 2 ∨ a = dst + 3) by omega)]

/-- Bytes inside the written window receive the corresponding source byte,
provided the source and destination windows do not overlap. -/
lemma cpy4_copies : ∀ (size : Nat) (m : Nat → Nat) (dst src a : Nat),
    (dst + 4 * ((size + 3) / 4) ≤ src ∨ src + 4 * ((size + 3) / 4) ≤ dst) →
    dst ≤ a → a < dst + 4 * ((size + 3) / 4) →
    cpy4 m dst src size a = m (src + (a - dst)) := by
  intro size
  induction size using Nat.strong_induction_on with
  | _ size ih =>
    intro m dst src a hd hlo hhi
    rcases size with _ | _ | _ | _ | n
    · exact absurd hhi (by omega)
    · simp only [cpy4, copyWord4]
      rw [if_pos (show a = dst ∨ a = dst + 1 ∨ a = dst + 2 ∨ a = dst + 3 by omega)]
    · simp only [cpy4, copyWord4]
      rw [if_pos (show a = dst ∨ a = dst + 1 ∨ a = dst + 2 ∨ a = dst + 3 by omega)]
    · simp only [cpy4, copyWord4]
      rw [if_pos (show a = dst ∨ a = dst + 1 ∨ a = dst + 2 ∨ a = dst + 3 by omega)]
    · simp only [cpy4]
      by_cases ha : a < dst + 4
      · rw [cpy4_frame n (copyWord4 m dst src) (dst + 4) (src + 4) a (Or.inl (by omega))]
        simp only [copyWord4]
        rw [if_pos (show a = dst ∨ a = dst + 1 ∨ a = dst + 2 ∨ a = dst + 3 by omega)]
      · rw [ih n (by omega) (copyWord4 m dst src) (dst + 4) (src + 4) a (by omega)
          (by omega) (by omega)]
        have harg : src + 4 + (a - (dst + 4)) = src + (a - dst) := by omega
        rw [harg]
        simp only [copyWord4]
        rw [if_neg (show ¬(src + (a - dst) = dst ∨ src + (a - dst) = dst + 1 ∨
          src + (a - dst) = dst + 2 ∨ src + (a - dst) = dst + 3) by omega)]

/-- C6 counterexample: the claim predicts that for size = 6 (not a multiple
of 4) only the bytes up to offset 4 = (6 / 4) * 4 are copied, so the byte at
dst + 4 = 104 would keep its old value 104 under the memory a ↦ a with
dst = 100, src = 0.  The code instead copies the final partial word whole:
the byte at 104 becomes the source byte at offset 4, namely 4. -/
theorem cpy4_truncation_refuted :
    cpy4 (fun a => a) 100 0 6 104 = 4 ∧ (4 : Nat) ≠ 104 := by
  constructor
  · decide
  · decide

/-- C6 amended: cpy4 copies whole 4-byte words, 4 * ceil(size / 4) bytes in
total: for sizes that are multiples of 4 it copies exactly size bytes, and
for other sizes it copies the remainder rounded UP to the next multiple of 4
(over-copying past size), never truncating.  Stated for non-overlapping
source and destination windows; bytes outside the destination window are
unchanged. -/
theorem cpy4_rounds_up_to_word (m : Nat → Nat) (dst src size a : Nat)
    (hd : dst + 4 * ((size + 3) / 4) ≤ src ∨ src + 4 * ((size + 3) / 4) ≤ dst) :
    (cpy4 m dst src size a =
      if dst ≤ a ∧ a < dst + 4 * ((size + 3) / 4) then m (src + (a - dst)) else m a) ∧
    (size % 4 = 0 → 4 * ((size + 3) / 4) = size) ∧
    (size % 4 ≠ 0 → size < 4 * ((size + 3) / 4)) := by
  refine ⟨?_, fun h => by omega, fun h => by omega⟩
  split
  next h => exact cpy4_copies size m dst src a hd h.1 h.2
  next h => exact cpy4_frame size m dst src a (by omega)

/-- C6 amended, witness: with size = 6, dst = 100, src = 0 over the memory
a ↦ a, the byte at dst + 4 is copied (value 4), the byte at dst + 5 is
copied (value 5), and the byte at dst + 8 is not (value 108): 8 bytes are
copied for size 6. -/
theorem cpy4_rounds_up_to_word_witness :
    cpy4 (fun a => a) 100 0 6 104 = 4 ∧ cpy4 (fun a => a) 100 0 6 105 = 5 ∧
    cpy4 (fun a => a) 100 0 6 108 = 108 ∧ (6 : Nat) < 4 * ((6 + 3) / 4) := by
  refine ⟨?_, ?_, ?_, ?_⟩
  · simpa using (cpy4_rounds_up_to_word (fun a => a) 100 0 6 104 (Or.inr (by decide))).1
  · simpa using (cpy4_rounds_up_to_word (fun a => a) 100 0 6 105 (Or.inr (by decide))).1
  · simpa using (cpy4_rounds_up_to_word (fun a => a) 100 0 6 108 (Or.inr (by decide))).1
  · exact (cpy4_rounds_up_to_word (fun a => a) 100 0 6 104 (Or.inr (by decide))).2.2 (by decide)
